import Mathlib

/-!
Shallow embedding of the reconciliation and discovery core of
local-repo-manager (src/local_repo_manager), together with proofs about
the behaviour the specification describes.

Modules embedded:
  * util.py    : run_command, dir_exists, is_inited, create_parent_dir
  * envrc.py   : has_envrc, is_envrc_setup
  * project.py : the Project reconciler state machine
  * update.py  : get_project_info, get_remotes, update_config (discovery)
  * main.py    : the per-project reporting decision in run()

Conventions.  The observed filesystem and VCS state of a single project is a
`World`.  External queries (dir_exists, is_inited, git remote get-url, direnv
status) read the `World`; mutating actions are recorded as `Effect` values and
update the `World` through `Effect.exec`, which models the nominal behaviour
of the external tools (a successful clone produces an initialized repository
whose only remote is origin at the cloned URL).  Plan entries are modelled by
the inductive `PlanEntry`: each constructor stands for exactly one string the
Python code appends to `self.plan`, carrying the data interpolated into that
string.  Failure semantics of run_command itself are modelled separately at
the command level (section util.run_command below).
-/

set_option autoImplicit false

namespace LocalRepoManager

/-- Observed state of one project directory, re-derived fresh each run. -/
structure World where
  dirExists : Bool
  isInited : Bool
  /-- configured remotes, as git reports them: name to URL -/
  remoteUrls : List (String × String)
  /-- content of the .envrc file, none when the file does not exist -/
  envrcContent : Option String
  /-- stdout of `direnv status` run in the project directory -/
  direnvOutput : String
  venvExists : Bool
deriving Repr, DecidableEq

/-- One mutating action of the reconciler.  `createParentDir` and
`writeEnvrcFile` are direct filesystem mutations performed by the Python
process itself; every other constructor is an invocation of an external tool
(git, direnv, uv).  Read-only queries are not effects. -/
inductive Effect where
  | createParentDir
  | gitClone (url : String)
  | gitInit
  | writeEnvrcFile
  | direnvAllow
  | uvVenv
  | gitRemoteAdd (name url : String)
  | gitRemoteSetUrl (name url : String)
  | gitFetchOrigin
  | gitSubmoduleUpdate
deriving Repr, DecidableEq

/-- Whether an effect is an invocation of an external tool (as opposed to a
direct filesystem mutation done by the Python process).  Every external-tool
invocation recorded as an effect mutates state; read-only queries are not
recorded as effects at all. -/
def Effect.isExternalTool : Effect → Bool
  | .createParentDir => false
  | .writeEnvrcFile => false
  | _ => true

/-- Whether the character list starts with the given pattern. -/
def startsWithL : List Char → List Char → Bool
  | _, [] => true
  | [], _ :: _ => false
  | a :: as, b :: bs => a = b && startsWithL as bs

/-- Whether the pattern occurs as a contiguous sublist. -/
def containsSubL : List Char → List Char → Bool
  | [], pat => pat.isEmpty
  | a :: rest, pat => startsWithL (a :: rest) pat || containsSubL rest pat

/-- Substring test: Python `pat in s`. -/
def strContains (s pat : String) : Bool := containsSubL s.data pat.data

/-- Split a character list at every occurrence of the separator; `cur` holds
the characters of the piece being read, in reverse. -/
def splitCharL (sep : Char) : List Char → List Char → List String
  | cur, [] => [String.mk cur.reverse]
  | cur, c :: rest =>
      if c = sep then String.mk cur.reverse :: splitCharL sep [] rest
      else splitCharL sep (c :: cur) rest

/-- ASCII whitespace, as Python str.strip removes at both ends. -/
def isSpaceChar (c : Char) : Bool := c = ' ' || c = '\t' || c = '\n' || c = '\r'

/-- Python str.strip(): remove whitespace from both ends. -/
def strTrim (s : String) : String :=
  String.mk (((s.data.dropWhile isSpaceChar).reverse.dropWhile isSpaceChar).reverse)

/-- Nominal behaviour of the external tools on the observed world.  A fresh
clone is initialized, has exactly the origin remote at the cloned URL and
contains neither a .envrc file nor a .venv directory; git init marks the
directory initialized; direnv allow makes a later `direnv status` report the
allowed marker; uv venv creates the .venv directory. -/
def Effect.exec : Effect → World → World
  | .createParentDir, w => w
  | .gitClone url, _ =>
      { dirExists := true, isInited := true, remoteUrls := [("origin", url)],
        envrcContent := none, direnvOutput := "", venvExists := false }
  | .gitInit, w => { w with isInited := true }
  | .writeEnvrcFile, w => { w with envrcContent := some "source .venv/bin/activate" }
  | .direnvAllow, w => { w with direnvOutput := "Found RC allowed true" }
  | .uvVenv, w => { w with venvExists := true }
  | .gitRemoteAdd n u, w => { w with remoteUrls := w.remoteUrls ++ [(n, u)] }
  | .gitRemoteSetUrl n u, w =>
      { w with remoteUrls := w.remoteUrls.map (fun kv => if kv.1 = n then (n, u) else kv) }
  | .gitFetchOrigin, w => w
  | .gitSubmoduleUpdate, w => w

namespace Util

/-- util.dir_exists: `directory.is_dir()`. -/
def dir_exists (w : World) : Bool := w.dirExists

/-- util.is_inited: `(directory / ".git").is_dir()`. -/
def is_inited (w : World) : Bool := w.isInited

end Util

namespace Envrc

/-- envrc.is_envrc_setup: run `direnv status` in the directory and scan the
output for the marker substring. -/
def is_envrc_setup (w : World) : Bool := strContains w.direnvOutput "Found RC allowed true"

/-- envrc.has_envrc: the .envrc file exists and its content contains the venv
activation line. -/
def has_envrc (content : Option String) : Bool :=
  match content with
  | none => false
  | some c => strContains c "source .venv/bin/activate"

end Envrc

/-- One entry of `self.plan`.  Each constructor stands for exactly one string
appended by project.py, with the interpolated data as arguments (the project
name for the clone/init/envrc/venv messages, the remote name and URLs for the
remote messages; the update case appends three consecutive strings). -/
inductive PlanEntry where
  | willCloneNewDir (projectName : String)
  | willCloneExistingDir (projectName : String)
  | willCreateEnvrc (projectName : String)
  | willAllowEnvrc (projectName : String)
  | willCreateVenv (projectName : String)
  | willAddRemote (remoteName url : String)
  | willUpdateRemote (remoteName : String)
  | updateFrom (url : String)
  | updateTo (url : String)
deriving Repr, DecidableEq

/-- The declared state of one project, as Project.__init__ reads it from the
loaded declaration: name, group, the envrc flag (default false) and the
remotes mapping (default empty), in insertion order.  No validation is
performed by the constructor. -/
structure ProjectData where
  name : String
  group : String
  envrc : Bool
  remotes : List (String × String)
deriving Repr, DecidableEq

/-- Mutable per-run state of a Project: the observed world, the accumulated
plan (`self.plan`) and the trace of mutating actions performed so far. -/
structure St where
  world : World
  plan : List PlanEntry
  effects : List Effect
deriving Repr, DecidableEq

/-- Perform one mutating action: record it and update the observed world. -/
def St.doEffect (s : St) (e : Effect) : St :=
  { world := e.exec s.world, plan := s.plan, effects := s.effects ++ [e] }

/-- Append one plan entry (`self.plan.append(...)`). -/
def St.addPlan (s : St) (e : PlanEntry) : St :=
  { s with plan := s.plan ++ [e] }

/-- The unhandled Python exception the reconciler can raise: passing None as
the clone URL makes run_command crash with a TypeError when it joins the
argument list for logging (and subprocess would likewise reject None). -/
inductive PyExc where
  | typeError
deriving Repr, DecidableEq

namespace Project

/-- Project.get_remote_url in the run context: `git remote get-url <name>`
with raise_err=True, the CalledProcessError caught and turned into None.  A
configured remote yields its URL, an absent one yields none. -/
def get_remote_url (w : World) (name : String) : Option String :=
  w.remoteUrls.lookup name

/-- Project.clone_repo: looks up the origin URL with `remotes.get("origin")`
and passes it to `git clone`.  When no origin entry exists the URL is None
and the command invocation raises TypeError. -/
def clone_repo (p : ProjectData) (s : St) : Except PyExc St :=
  match p.remotes.lookup "origin" with
  | none => .error .typeError
  | some url => .ok (s.doEffect (.gitClone url))

/-- Project.init_repo: `git init <dir>`. -/
def init_repo (s : St) : St := s.doEffect .gitInit

/-- Second half of Project.setup_envrc: the allow check, reached when the
.envrc file exists or was just created in apply mode. -/
def allow_check (p : ProjectData) (apply : Bool) (s : St) : St :=
  if Envrc.is_envrc_setup s.world then s
  else if apply then s.doEffect .direnvAllow
  else s.addPlan (.willAllowEnvrc p.name)

/-- Project.setup_envrc.  If the .envrc file is missing: apply mode writes it
and continues to the allow check; plan mode records the creation and returns
early, skipping the allow check for this call. -/
def setup_envrc (p : ProjectData) (apply : Bool) (s : St) : St :=
  if (s.world.envrcContent).isSome then allow_check p apply s
  else if apply then allow_check p apply (s.doEffect .writeEnvrcFile)
  else s.addPlan (.willCreateEnvrc p.name)

/-- Project.setup_venv: create the .venv directory when absent. -/
def setup_venv (p : ProjectData) (apply : Bool) (s : St) : St :=
  if s.world.venvExists then s
  else if apply then s.doEffect .uvVenv
  else s.addPlan (.willCreateVenv p.name)

/-- Project.set_up_remote for one declared remote: query the configured URL
live; absent means add, different means set-url (plan mode appends the
header line and the two URL lines), equal means no action. -/
def set_up_remote (apply : Bool) (name url : String) (s : St) : St :=
  match get_remote_url s.world name with
  | none =>
      if apply then s.doEffect (.gitRemoteAdd name url)
      else s.addPlan (.willAddRemote name url)
  | some actual =>
      if actual = url then s
      else if apply then s.doEffect (.gitRemoteSetUrl name url)
      else ((s.addPlan (.willUpdateRemote name)).addPlan
              (.updateFrom actual)).addPlan (.updateTo url)

/-- Project.setup_origin: when an origin remote is declared, fetch origin and
update submodules; otherwise skip. -/
def setup_origin (p : ProjectData) (s : St) : St :=
  if (p.remotes.lookup "origin").isSome then
    (s.doEffect .gitFetchOrigin).doEffect .gitSubmoduleUpdate
  else s

/-- Tail of Project.run once the repository exists and is initialized:
environment setup when the envrc flag is set, then the remote loop, then the
sync step in apply mode unless skip_fetch. -/
def run_after_init (p : ProjectData) (apply skipFetch : Bool) (s : St) : St :=
  let s := if p.envrc then setup_venv p apply (setup_envrc p apply s) else s
  let s := p.remotes.foldl (fun s nu => set_up_remote apply nu.1 nu.2 s) s
  if apply && !skipFetch then setup_origin p s else s

/-- Initialization gate of Project.run: an existing but uninitialized
directory is initialized in apply mode (then processing continues); plan
mode records the step and stops. -/
def run_after_exists (p : ProjectData) (apply skipFetch : Bool) (s : St) : St :=
  if Util.is_inited s.world then run_after_init p apply skipFetch s
  else if apply then run_after_init p apply skipFetch (init_repo s)
  else s.addPlan (.willCloneExistingDir p.name)

/-- Project.run.  Existence gate: a missing directory is cloned in apply mode
(after creating parent directories) and processing continues against the
fresh observation; plan mode records the clone and stops. -/
def run (p : ProjectData) (apply skipFetch : Bool) (w : World) : Except PyExc St :=
  let s : St := ⟨w, [], []⟩
  if Util.dir_exists w then .ok (run_after_exists p apply skipFetch s)
  else if apply then
    match clone_repo p (s.doEffect .createParentDir) with
    | .error e => .error e
    | .ok s1 => .ok (run_after_exists p apply skipFetch s1)
  else .ok (s.addPlan (.willCloneNewDir p.name))

end Project

namespace Cmd

/-!
Command-level model of util.run_command and its call sites in update.py,
used for the failure-semantics claim.  A `CmdResult` is the observable
outcome of one external process invocation: exit code zero with captured
stdout, or a nonzero exit code with captured stdout and stderr.
-/

/-- Outcome of one external process invocation. -/
inductive CmdResult where
  | success (stdout : String)
  | failure (returncode : Nat) (stdout stderr : String)
deriving Repr, DecidableEq

/-- os.EX_OSERR. -/
def EX_OSERR : Nat := 71

/-- os.EX_NOINPUT. -/
def EX_NOINPUT : Nat := 66

/-- The two ways a run_command call can fail to return a value: the
CalledProcessError re-raised when raise_err is set, and a process exit. -/
inductive Exn where
  | calledProcessError (returncode : Nat) (stdout stderr : String)
  | processExit (code : Nat)
deriving Repr, DecidableEq

/-- util.run_command: success returns stdout stripped of surrounding
whitespace; a nonzero exit re-raises the CalledProcessError when raise_err
is true and otherwise exits the whole process with os.EX_OSERR after logging
the captured output. -/
def run_command (raiseErr : Bool) (res : CmdResult) : Except Exn String :=
  match res with
  | .success out => .ok (strTrim out)
  | .failure rc out err =>
      if raiseErr then .error (.calledProcessError rc out err)
      else .error (.processExit EX_OSERR)

/-- Project.get_remote_url at the command level: run_command with
raise_err=True inside try/except CalledProcessError, returning None when the
lookup fails; a process exit would propagate (it never arises here). -/
def get_remote_url_cmd (res : CmdResult) : Except Exn (Option String) :=
  match run_command true res with
  | .ok s => .ok (some s)
  | .error (.calledProcessError _ _ _) => .ok none
  | .error e => .error e

/-- Python str.splitlines on an already-stripped string: the empty string
yields no lines. -/
def splitlines (s : String) : List String :=
  if s = "" then [] else splitCharL (Char.ofNat 10) [] s.data

/-- update.get_remotes at the command level: `git remote` (raise_err left at
its default False), then for each listed name `git remote get-url <name>`,
again with raise_err False, so any failure exits the process. -/
def get_remotes_cmd (remoteList : CmdResult) (getUrl : String → CmdResult) :
    Except Exn (List (String × String)) :=
  match run_command false remoteList with
  | .error e => .error e
  | .ok out =>
      (splitlines out).foldlM
        (fun acc name =>
          match run_command false (getUrl name) with
          | .error e => .error e
          | .ok url => .ok (acc ++ [(name, url)]))
        []

end Cmd

namespace Update

/-!
Embedding of the discovery engine (update.py).  The two-level directory tree
below the base directory is modelled directly; `git remote` and
`git remote get-url` behave nominally here (each configured remote reports
its URL); their failure behaviour is covered by the command-level model.
-/

/-- One candidate project directory two levels below the base directory. -/
structure ProjectDirState where
  name : String
  /-- whether the directory contains a .git directory -/
  inited : Bool
  /-- configured remotes as `git remote` lists them, with their URLs -/
  remotes : List (String × String)
  /-- content of the .envrc file, none when absent -/
  envrcContent : Option String
deriving Repr, DecidableEq

/-- One group directory one level below the base directory. -/
structure GroupDirState where
  name : String
  projects : List ProjectDirState
deriving Repr, DecidableEq

/-- One entry of the project table of the declaration: the data
update.get_project_info synthesizes. -/
structure ConfigEntry where
  remotes : List (String × String)
  group : String
  name : String
  envrc : Bool
deriving Repr, DecidableEq

/-- The project table of the declaration, in insertion order. -/
def Config : Type := List (String × ConfigEntry)

instance : DecidableEq Config := by
  unfold Config; infer_instance

/-- Python dict assignment `cfg[k] = v` on an insertion-ordered table with
unique keys: replace in place when the key is present, else append. -/
def setKey : Config → String → ConfigEntry → Config
  | [], k, v => [(k, v)]
  | (k0, v0) :: rest, k, v =>
      if k0 = k then (k, v) :: rest else (k0, v0) :: setKey rest k v

/-- Lookup in the project table. -/
def getKey : Config → String → Option ConfigEntry
  | [], _ => none
  | (k0, v) :: rest, k => if k0 = k then some v else getKey rest k

/-- update.get_remotes, nominal behaviour: the configured remotes with their
URLs, in the order `git remote` lists them. -/
def get_remotes (pd : ProjectDirState) : List (String × String) := pd.remotes

/-- update.get_project_info: the synthesized key is group.name; a repository
with no remotes yields no entry (nothing could be cloned from it); otherwise
the entry carries the remotes, group, name and the envrc marker flag. -/
def get_project_info (pd : ProjectDirState) (groupName : String) :
    String × Option ConfigEntry :=
  let configName := groupName ++ "." ++ pd.name
  let remotes := get_remotes pd
  if remotes.isEmpty then (configName, none)
  else (configName, some ⟨remotes, groupName, pd.name, Envrc.has_envrc pd.envrcContent⟩)

/-- Body of the inner loop of update.update_config for one candidate
directory: an initialized repository contributes its synthesized entry by
key assignment; an uninitialized directory is reported and skipped. -/
def processProject (g : GroupDirState) (cfg : Config) (pd : ProjectDirState) : Config :=
  if pd.inited then
    match get_project_info pd g.name with
    | (name, some project) => setKey cfg name project
    | (_, none) => cfg
  else cfg

/-- update.update_config over an existing base directory: a missing or empty
declaration starts from an empty table, then the two nested loops walk every
group directory and every project directory inside it. -/
def update_config (config : Option Config) (base : List GroupDirState) : Config :=
  let cfg : Config := match config with | none => [] | some c => c
  base.foldl (fun c g => g.projects.foldl (processProject g) c) cfg

/-- All candidate keys a discovery walk over this tree can assign. -/
def observedKeys (base : List GroupDirState) : List String :=
  base.flatMap (fun g => g.projects.map (fun pd => g.name ++ "." ++ pd.name))

end Update

namespace Paths

/-!
Path model for Project.__init__: `(repo_dir / group / name).resolve()`.
A path is its list of components below the filesystem root; resolution
processes "." and ".." lexically, ".." popping the last component (at the
root it stays at the root, as on POSIX).  Operands of the pathlib `/`
operator are split on "/" with empty pieces dropped.
-/

/-- Split one pathlib operand into components: pieces between slashes, with
empty pieces dropped as pathlib drops them. -/
def splitPath (s : String) : List String :=
  (splitCharL (Char.ofNat 47) [] s.data).filter (fun c => c ≠ "")

/-- One step of lexical resolution. -/
def resolveStep (acc : List String) (c : String) : List String :=
  if c = "." then acc
  else if c = ".." then acc.dropLast
  else acc ++ [c]

/-- Lexical resolution of a component list, as Path.resolve performs on a
symlink-free path. -/
def resolveComponents (cs : List String) : List String := cs.foldl resolveStep []

/-- The resolved project directory of Project.__init__:
`(repo_dir / self.group / self.name).resolve()`.  No validation of group or
name happens anywhere in the constructor. -/
def projectDir (baseDir : List String) (group name : String) : List String :=
  resolveComponents (baseDir ++ splitPath group ++ splitPath name)

/-- A single well-formed path component: one piece under splitPath and not a
navigation component. -/
def normalComponent (c : String) : Prop :=
  splitPath c = [c] ∧ c ≠ "." ∧ c ≠ ".."

instance (c : String) : Decidable (normalComponent c) := by
  unfold normalComponent; infer_instance

/-- The resolved directory stays inside the base directory. -/
def withinBase (base dir : List String) : Bool := base.isPrefixOf dir

end Paths

namespace MainM

/-- The per-project reporting decision of main.run: after prj.run() the
caller prints the plan only when the action is plan and the plan is
nonempty; in every other case, the apply case included, it prints
"no changes" for the project. -/
def reportsNoChanges (action : String) (plan : List PlanEntry) : Bool :=
  !(action == "plan" && !plan.isEmpty)

end MainM

/-- A project is fully converged: the directory exists, the repository is
initialized, every declared remote is configured with exactly the declared
URL, and when the envrc flag is set the activation file exists, direnv
reports it allowed and the venv directory exists. -/
def converged (p : ProjectData) (w : World) : Prop :=
  Util.dir_exists w = true ∧ Util.is_inited w = true ∧
  (∀ nu ∈ p.remotes, Project.get_remote_url w nu.1 = some nu.2) ∧
  (p.envrc = true →
    (w.envrcContent).isSome = true ∧ Envrc.is_envrc_setup w = true ∧ w.venvExists = true)

instance (p : ProjectData) (w : World) : Decidable (converged p w) := by
  unfold converged; infer_instance

/-- The effects of the sync step of an apply run: fetch origin and update
submodules, unless skip_fetch is set or no origin remote is declared. -/
def syncEffects (p : ProjectData) (skipFetch : Bool) : List Effect :=
  if skipFetch then []
  else if (p.remotes.lookup "origin").isSome then [.gitFetchOrigin, .gitSubmoduleUpdate]
  else []

/-- The remote comparator of the specification, per declared remote: absent
means add, present with a different URL means the three update lines carrying
the old and the new URL, present and string-equal means nothing. -/
def remoteEntries (w : World) (nu : String × String) : List PlanEntry :=
  match Project.get_remote_url w nu.1 with
  | none => [.willAddRemote nu.1 nu.2]
  | some actual =>
      if actual = nu.2 then []
      else [.willUpdateRemote nu.1, .updateFrom actual, .updateTo nu.2]

/-!
## Theorems

Helper lemmas first, then one theorem per claim (with its witness or
counterexample where required).
-/

theorem doEffect_plan (s : St) (e : Effect) : (s.doEffect e).plan = s.plan := rfl

theorem clone_repo_plan (p : ProjectData) (s s1 : St)
    (h : Project.clone_repo p s = .ok s1) : s1.plan = s.plan := by
  unfold Project.clone_repo at h
  cases hl : p.remotes.lookup "origin" with
  | none => rw [hl] at h; cases h
  | some url => rw [hl] at h; cases h; rfl

theorem allow_check_apply_plan (p : ProjectData) (s : St) :
    (Project.allow_check p true s).plan = s.plan := by
  unfold Project.allow_check
  split <;> simp [St.doEffect]

theorem setup_envrc_apply_plan (p : ProjectData) (s : St) :
    (Project.setup_envrc p true s).plan = s.plan := by
  unfold Project.setup_envrc
  split
  · exact allow_check_apply_plan p s
  · simp [allow_check_apply_plan, St.doEffect]

theorem setup_venv_apply_plan (p : ProjectData) (s : St) :
    (Project.setup_venv p true s).plan = s.plan := by
  unfold Project.setup_venv
  split <;> simp [St.doEffect]

theorem set_up_remote_apply_plan (name url : String) (s : St) :
    (Project.set_up_remote true name url s).plan = s.plan := by
  unfold Project.set_up_remote
  cases Project.get_remote_url s.world name with
  | none => simp [St.doEffect]
  | some actual => by_cases h : actual = url <;> simp [h, St.doEffect]

theorem remotes_fold_apply_plan (rs : List (String × String)) (s : St) :
    (rs.foldl (fun s nu => Project.set_up_remote true nu.1 nu.2 s) s).plan = s.plan := by
  induction rs generalizing s with
  | nil => rfl
  | cons nu rest ih =>
      simp only [List.foldl_cons]
      rw [ih, set_up_remote_apply_plan]

theorem setup_origin_plan (p : ProjectData) (s : St) :
    (Project.setup_origin p s).plan = s.plan := by
  unfold Project.setup_origin
  split <;> rfl

theorem run_after_init_apply_plan (p : ProjectData) (skipFetch : Bool) (s : St) :
    (Project.run_after_init p true skipFetch s).plan = s.plan := by
  unfold Project.run_after_init
  by_cases hs : skipFetch <;> by_cases he : p.envrc <;>
    simp [hs, he, setup_origin_plan, remotes_fold_apply_plan, setup_venv_apply_plan,
      setup_envrc_apply_plan]

theorem run_after_exists_apply_plan (p : ProjectData) (skipFetch : Bool) (s : St) :
    (Project.run_after_exists p true skipFetch s).plan = s.plan := by
  unfold Project.run_after_exists
  split
  · exact run_after_init_apply_plan p skipFetch s
  · simp [run_after_init_apply_plan, Project.init_repo, St.doEffect]

/-- C10: in apply mode every plan-recording branch instead executes its
action, so a run that returns at all returns an empty plan, and the caller
in main.run therefore reports "no changes" for every project after an
apply. -/
theorem c10_apply_run_returns_empty_plan (p : ProjectData) (skipFetch : Bool)
    (w : World) (s : St) (h : Project.run p true skipFetch w = .ok s) :
    s.plan = [] ∧ MainM.reportsNoChanges "apply" s.plan = true := by
  have hplan : s.plan = [] := by
    unfold Project.run at h
    split at h
    · cases h
      rw [run_after_exists_apply_plan]
    · simp only [if_pos rfl] at h
      cases hc : Project.clone_repo p (St.doEffect ⟨w, [], []⟩ .createParentDir) with
      | error e => rw [hc] at h; cases h
      | ok s1 =>
          rw [hc] at h
          cases h
          rw [run_after_exists_apply_plan, clone_repo_plan p _ _ hc]
          rfl
  exact ⟨hplan, by rw [hplan]; rfl⟩

/-- Witness for C10 at a concrete project and world. -/
theorem c10_witness :
    St.plan ⟨⟨true, true, [("origin", "u1")], none, "", false⟩,
      [], [Effect.gitFetchOrigin, Effect.gitSubmoduleUpdate]⟩ = [] ∧
    MainM.reportsNoChanges "apply"
      (St.plan ⟨⟨true, true, [("origin", "u1")], none, "", false⟩,
        [], [Effect.gitFetchOrigin, Effect.gitSubmoduleUpdate]⟩) = true :=
  c10_apply_run_returns_empty_plan ⟨"p", "g", false, [("origin", "u1")]⟩ false
    ⟨true, true, [("origin", "u1")], none, "", false⟩ _ (by rfl)

/-- C5: a plan-mode run on an existing but uninitialized directory records
exactly the initialization-gate entry and stops, regardless of the declared
remotes and environment settings. -/
theorem c5_init_gate_single_entry (p : ProjectData) (skipFetch : Bool) (w : World)
    (hd : Util.dir_exists w = true) (hi : Util.is_inited w = false) :
    Project.run p false skipFetch w = .ok ⟨w, [.willCloneExistingDir p.name], []⟩ := by
  unfold Project.run Project.run_after_exists
  simp [hd, hi, St.addPlan]

/-- Witness for C5: a project declaring remotes and wanting an environment
still gets the single init entry. -/
theorem c5_witness :
    Project.run ⟨"p", "g", true, [("origin", "u1"), ("up", "u2")]⟩ false false
        ⟨true, false, [], none, "", false⟩ =
      .ok ⟨⟨true, false, [], none, "", false⟩, [.willCloneExistingDir "p"], []⟩ :=
  c5_init_gate_single_entry ⟨"p", "g", true, [("origin", "u1"), ("up", "u2")]⟩ false
    ⟨true, false, [], none, "", false⟩ rfl rfl

theorem set_up_remote_equal (apply : Bool) (name url : String) (s : St)
    (h : Project.get_remote_url s.world name = some url) :
    Project.set_up_remote apply name url s = s := by
  unfold Project.set_up_remote
  rw [h]
  simp

theorem remotes_fold_converged (apply : Bool) (rs : List (String × String))
    (w : World) (pl : List PlanEntry) (ef : List Effect)
    (h : ∀ nu ∈ rs, Project.get_remote_url w nu.1 = some nu.2) :
    rs.foldl (fun s nu => Project.set_up_remote apply nu.1 nu.2 s) ⟨w, pl, ef⟩ =
      ⟨w, pl, ef⟩ := by
  induction rs with
  | nil => rfl
  | cons nu rest ih =>
      simp only [List.foldl_cons]
      rw [set_up_remote_equal apply nu.1 nu.2 ⟨w, pl, ef⟩ (h nu (by simp))]
      exact ih (fun x hx => h x (by simp [hx]))

theorem run_after_init_converged (p : ProjectData) (apply skipFetch : Bool) (w : World)
    (hr : ∀ nu ∈ p.remotes, Project.get_remote_url w nu.1 = some nu.2)
    (he : p.envrc = true →
      (w.envrcContent).isSome = true ∧ Envrc.is_envrc_setup w = true ∧ w.venvExists = true) :
    Project.run_after_init p apply skipFetch ⟨w, [], []⟩ =
      if apply && !skipFetch then Project.setup_origin p ⟨w, [], []⟩ else ⟨w, [], []⟩ := by
  have henv :
      (if p.envrc then Project.setup_venv p apply (Project.setup_envrc p apply ⟨w, [], []⟩)
        else ⟨w, [], []⟩) = (⟨w, [], []⟩ : St) := by
    by_cases hp : p.envrc
    · obtain ⟨h1, h2, h3⟩ := he hp
      simp [hp, Project.setup_venv, Project.setup_envrc, Project.allow_check, h1, h2, h3]
    · simp [hp]
  have hfold := remotes_fold_converged apply p.remotes w [] [] hr
  unfold Project.run_after_init
  simp only [henv, hfold]

/-- C1 (amended): on a fully converged project a plan run yields an empty
plan and performs nothing; an apply run also yields an empty plan and
performs no action at all except the sync step, which still fetches origin
and updates submodules whenever an origin remote is declared and skip_fetch
is false. -/
theorem c1_converged_sync_only (p : ProjectData) (skipFetch : Bool) (w : World)
    (h : converged p w) :
    Project.run p false skipFetch w = .ok ⟨w, [], []⟩ ∧
    Project.run p true skipFetch w = .ok ⟨w, [], syncEffects p skipFetch⟩ := by
  obtain ⟨hd, hi, hr, he⟩ := h
  have hinit := fun apply => run_after_init_converged p apply skipFetch w hr he
  constructor
  · unfold Project.run Project.run_after_exists
    simp [hd, hi, hinit false]
  · unfold Project.run Project.run_after_exists
    simp only [hd, if_true, hinit true]
    simp only [Bool.true_and]
    unfold Project.setup_origin syncEffects
    by_cases hs : skipFetch
    · simp [hi, hs]
    · by_cases ho : (p.remotes.lookup "origin").isSome <;>
        simp [hi, hs, ho, St.doEffect, Effect.exec]

/-- Counterexample to C1 as stated: this project is fully converged, yet its
apply run invokes two mutating external tools (git fetch and git submodule
update). -/
theorem c1_sync_counterexample :
    converged ⟨"p", "g", false, [("origin", "u1")]⟩
      ⟨true, true, [("origin", "u1")], none, "", false⟩ ∧
    Project.run ⟨"p", "g", false, [("origin", "u1")]⟩ true false
        ⟨true, true, [("origin", "u1")], none, "", false⟩ =
      .ok ⟨⟨true, true, [("origin", "u1")], none, "", false⟩, [],
        [.gitFetchOrigin, .gitSubmoduleUpdate]⟩ ∧
    Effect.isExternalTool .gitFetchOrigin = true ∧
    Effect.isExternalTool .gitSubmoduleUpdate = true :=
  ⟨by decide, by rfl, rfl, rfl⟩

/-- Witness for C1 (amended) on a concrete converged project wanting an
environment. -/
theorem c1_witness :
    Project.run ⟨"p", "g", true, [("origin", "u1")]⟩ false false
        ⟨true, true, [("origin", "u1")], some "source .venv/bin/activate",
          "Found RC allowed true", true⟩ =
      .ok ⟨⟨true, true, [("origin", "u1")], some "source .venv/bin/activate",
        "Found RC allowed true", true⟩, [], []⟩ ∧
    Project.run ⟨"p", "g", true, [("origin", "u1")]⟩ true false
        ⟨true, true, [("origin", "u1")], some "source .venv/bin/activate",
          "Found RC allowed true", true⟩ =
      .ok ⟨⟨true, true, [("origin", "u1")], some "source .venv/bin/activate",
        "Found RC allowed true", true⟩, [], [.gitFetchOrigin, .gitSubmoduleUpdate]⟩ := by
  have h := c1_converged_sync_only ⟨"p", "g", true, [("origin", "u1")]⟩ false
    ⟨true, true, [("origin", "u1")], some "source .venv/bin/activate",
      "Found RC allowed true", true⟩ (by decide)
  exact ⟨h.1, h.2.trans (by rfl)⟩

theorem set_up_remote_plan_mode (w : World) (pl : List PlanEntry) (ef : List Effect)
    (name url : String) :
    Project.set_up_remote false name url ⟨w, pl, ef⟩ =
      ⟨w, pl ++ remoteEntries w (name, url), ef⟩ := by
  cases hu : Project.get_remote_url w name with
  | none => simp [Project.set_up_remote, remoteEntries, hu, St.addPlan]
  | some actual =>
      by_cases he : actual = url <;>
        simp [Project.set_up_remote, remoteEntries, hu, he, St.addPlan]

theorem remotes_fold_plan_mode (rs : List (String × String)) (w : World)
    (pl : List PlanEntry) (ef : List Effect) :
    rs.foldl (fun s nu => Project.set_up_remote false nu.1 nu.2 s) ⟨w, pl, ef⟩ =
      ⟨w, pl ++ rs.flatMap (fun nu => remoteEntries w nu), ef⟩ := by
  induction rs generalizing pl with
  | nil => simp
  | cons nu rest ih =>
      simp only [List.foldl_cons, List.flatMap_cons]
      rw [set_up_remote_plan_mode, ih]
      simp

/-- C3: the remote comparator uses exact string equality only and treats
every declared remote independently: absent means one add entry, present
with a different URL means the update entries carrying the old and the new
URL, present and equal means no entry; the whole loop emits exactly the
concatenation of the per-remote results, so one remote never changes the
handling of another. -/
theorem c3_remote_comparator (w : World) (pl : List PlanEntry) (ef : List Effect)
    (name url : String) :
    (Project.get_remote_url w name = none →
      Project.set_up_remote false name url ⟨w, pl, ef⟩ =
        ⟨w, pl ++ [.willAddRemote name url], ef⟩) ∧
    (∀ actual, Project.get_remote_url w name = some actual → actual ≠ url →
      Project.set_up_remote false name url ⟨w, pl, ef⟩ =
        ⟨w, pl ++ [.willUpdateRemote name, .updateFrom actual, .updateTo url], ef⟩) ∧
    (Project.get_remote_url w name = some url →
      Project.set_up_remote false name url ⟨w, pl, ef⟩ = ⟨w, pl, ef⟩) ∧
    (∀ rs : List (String × String),
      rs.foldl (fun s nu => Project.set_up_remote false nu.1 nu.2 s) ⟨w, pl, ef⟩ =
        ⟨w, pl ++ rs.flatMap (fun nu => remoteEntries w nu), ef⟩) := by
  refine ⟨?_, ?_, ?_, fun rs => remotes_fold_plan_mode rs w pl ef⟩
  · intro h
    rw [set_up_remote_plan_mode]
    simp [remoteEntries, h]
  · intro actual h hne
    rw [set_up_remote_plan_mode]
    simp [remoteEntries, h, hne]
  · intro h
    rw [set_up_remote_plan_mode]
    simp [remoteEntries, h]

/-- Witness for C3: a trailing-slash variant of an equivalent URL is flagged
as a real mismatch, and the specification example with declared a, b against
observed a, b gives exactly the update entries for b. -/
theorem c3_witness :
    Project.set_up_remote false "origin" "git@h:o/r.git"
        ⟨⟨true, true, [("origin", "git@h:o/r.git/")], none, "", false⟩, [], []⟩ =
      ⟨⟨true, true, [("origin", "git@h:o/r.git/")], none, "", false⟩,
        [.willUpdateRemote "origin", .updateFrom "git@h:o/r.git/",
          .updateTo "git@h:o/r.git"], []⟩ ∧
    [("a", "u1"), ("b", "u2")].foldl
        (fun s nu => Project.set_up_remote false nu.1 nu.2 s)
        ⟨⟨true, true, [("a", "u1"), ("b", "u3")], none, "", false⟩, [], []⟩ =
      ⟨⟨true, true, [("a", "u1"), ("b", "u3")], none, "", false⟩,
        [.willUpdateRemote "b", .updateFrom "u3", .updateTo "u2"], []⟩ := by
  constructor
  · exact (c3_remote_comparator ⟨true, true, [("origin", "git@h:o/r.git/")], none, "", false⟩
      [] [] "origin" "git@h:o/r.git").2.1 "git@h:o/r.git/" (by rfl) (by decide)
  · exact ((c3_remote_comparator ⟨true, true, [("a", "u1"), ("b", "u3")], none, "", false⟩
      [] [] "a" "u1").2.2.2 [("a", "u1"), ("b", "u2")]).trans (by decide)

/-- Counterexample to C4 as stated: plan mode, environment wanted, activation
file absent and venv absent; after the creation of the activation file is
recorded, the venv check still contributes an entry to the plan of the same
call of Project.run. -/
theorem c4_venv_still_recorded_counterexample :
    Project.run ⟨"p", "g", true, []⟩ false false ⟨true, true, [], none, "", false⟩ =
      .ok ⟨⟨true, true, [], none, "", false⟩,
        [.willCreateEnvrc "p", .willCreateVenv "p"], []⟩ ∧
    PlanEntry.willCreateVenv "p" ∈
      [PlanEntry.willCreateEnvrc "p", PlanEntry.willCreateVenv "p"] := by
  exact ⟨by rfl, by decide⟩

/-- C4 (amended): in plan mode, once the creation of the activation file is
recorded, setup_envrc itself evaluates nothing further for that call, so no
allow entry ever arises; but setup_venv is a separate call that still runs
and records the venv creation when the venv directory is absent. -/
theorem c4_envrc_early_return (p : ProjectData) (w : World) (pl : List PlanEntry)
    (ef : List Effect) (hf : w.envrcContent = none) :
    Project.setup_envrc p false ⟨w, pl, ef⟩ =
      ⟨w, pl ++ [.willCreateEnvrc p.name], ef⟩ ∧
    (w.venvExists = false →
      Project.setup_venv p false (Project.setup_envrc p false ⟨w, pl, ef⟩) =
        ⟨w, pl ++ [.willCreateEnvrc p.name, .willCreateVenv p.name], ef⟩) ∧
    (w.venvExists = true →
      Project.setup_venv p false (Project.setup_envrc p false ⟨w, pl, ef⟩) =
        ⟨w, pl ++ [.willCreateEnvrc p.name], ef⟩) := by
  have h1 : Project.setup_envrc p false ⟨w, pl, ef⟩ =
      ⟨w, pl ++ [.willCreateEnvrc p.name], ef⟩ := by
    simp [Project.setup_envrc, hf, St.addPlan]
  refine ⟨h1, fun hv => ?_, fun hv => ?_⟩
  · rw [h1]
    simp [Project.setup_venv, hv, St.addPlan]
  · rw [h1]
    simp [Project.setup_venv, hv]

/-- Witness for C4 (amended) at a concrete project state. -/
theorem c4_witness :
    Project.setup_envrc ⟨"p", "g", true, []⟩ false
        ⟨⟨true, true, [], none, "", false⟩, [], []⟩ =
      ⟨⟨true, true, [], none, "", false⟩, [.willCreateEnvrc "p"], []⟩ ∧
    Project.setup_venv ⟨"p", "g", true, []⟩ false
        (Project.setup_envrc ⟨"p", "g", true, []⟩ false
          ⟨⟨true, true, [], none, "", false⟩, [], []⟩) =
      ⟨⟨true, true, [], none, "", false⟩,
        [.willCreateEnvrc "p", .willCreateVenv "p"], []⟩ := by
  have h := c4_envrc_early_return ⟨"p", "g", true, []⟩
    ⟨true, true, [], none, "", false⟩ [] [] rfl
  exact ⟨h.1, h.2.1 rfl⟩

/-- C2: when the target directory does not exist and the remotes mapping has
no origin entry, an apply run reaches clone_repo with a missing URL and
crashes with an unhandled TypeError; the code never produces a distinguished
MissingOriginError (no such error exists in it). -/
theorem c2_missing_origin_typeerror (p : ProjectData) (skipFetch : Bool) (w : World)
    (hd : Util.dir_exists w = false) (ho : p.remotes.lookup "origin" = none) :
    Project.run p true skipFetch w = .error .typeError := by
  unfold Project.run Project.clone_repo
  simp only [hd, Bool.false_eq_true, if_false, if_true]
  have hw : ((⟨w, [], []⟩ : St).doEffect .createParentDir).world = w := rfl
  simp [St.doEffect, Effect.exec, ho]

/-- Witness for C2 at the failing input: a project with only an upstream
remote and a missing directory. -/
theorem c2_witness :
    Project.run ⟨"p", "g", false, [("upstream", "u")]⟩ true false
        ⟨false, false, [], none, "", false⟩ = .error .typeError :=
  c2_missing_origin_typeerror ⟨"p", "g", false, [("upstream", "u")]⟩ false
    ⟨false, false, [], none, "", false⟩ rfl rfl

/-- Counterexample to C6 as stated: a failed remote-URL lookup made by the
discovery engine (update.get_remotes calls run_command without raise_err)
aborts the whole process with os.EX_OSERR instead of being reinterpreted as
a missing remote. -/
theorem c6_discovery_lookup_aborts_counterexample :
    Cmd.get_remotes_cmd (.success "origin") (fun _ => .failure 128 "" "fatal") =
      .error (.processExit Cmd.EX_OSERR) ∧
    Cmd.Exn.processExit Cmd.EX_OSERR ≠ Cmd.Exn.calledProcessError 128 "" "fatal" :=
  ⟨rfl, by decide⟩

/-- C6 (amended): a nonzero exit from run_command with raise_err unset exits
the whole process with the distinguished status os.EX_OSERR; with raise_err
set it re-raises the captured CalledProcessError; the single tolerating call
site is the reconciler lookup Project.get_remote_url, which turns any such
failure into None. -/
theorem c6_failure_semantics (rc : Nat) (out err : String) :
    Cmd.run_command false (.failure rc out err) = .error (.processExit Cmd.EX_OSERR) ∧
    Cmd.run_command true (.failure rc out err) = .error (.calledProcessError rc out err) ∧
    Cmd.get_remote_url_cmd (.failure rc out err) = .ok none :=
  ⟨rfl, rfl, rfl⟩

/-- Counterexample to C7 as stated: an initialized repository with no
configured remote produces no declaration entry. -/
theorem c7_no_remotes_no_entry_counterexample :
    Update.update_config none [⟨"g", [⟨"q", true, [], none⟩]⟩] = ([] : Update.Config) ∧
    Update.getKey (Update.update_config none [⟨"g", [⟨"q", true, [], none⟩]⟩]) "g.q" =
      none :=
  ⟨rfl, rfl⟩

theorem getKey_setKey_self : ∀ (cfg : Update.Config) (k : String) (v : Update.ConfigEntry),
    Update.getKey (Update.setKey cfg k v) k = some v
  | [], k, v => by simp [Update.setKey, Update.getKey]
  | (k0, v0) :: rest, k, v => by
      by_cases h : k0 = k
      · simp [Update.setKey, Update.getKey, h]
      · simp [Update.setKey, Update.getKey, h, getKey_setKey_self rest k v]

theorem getKey_setKey_frame :
    ∀ (cfg : Update.Config) (k0 : String) (v : Update.ConfigEntry) (k : String),
      k0 ≠ k → Update.getKey (Update.setKey cfg k0 v) k = Update.getKey cfg k
  | [], k0, v, k, h => by simp [Update.setKey, Update.getKey, h]
  | (k1, v1) :: rest, k0, v, k, h => by
      by_cases h1 : k1 = k0
      · subst h1
        simp [Update.setKey, Update.getKey, h]
      · by_cases h2 : k1 = k
        · simp [Update.setKey, Update.getKey, h1, h2, Ne.symm h]
        · simp [Update.setKey, Update.getKey, h1, h2,
            getKey_setKey_frame rest k0 v k h]

theorem setKey_isSome (cfg : Update.Config) (k0 : String) (v : Update.ConfigEntry)
    (k : String) (h : (Update.getKey cfg k).isSome = true) :
    (Update.getKey (Update.setKey cfg k0 v) k).isSome = true := by
  by_cases he : k0 = k
  · subst he
    rw [getKey_setKey_self]
    rfl
  · rw [getKey_setKey_frame cfg k0 v k he]
    exact h

theorem processProject_frame (g : Update.GroupDirState) (cfg : Update.Config)
    (pd : Update.ProjectDirState) (k : String) (h : g.name ++ "." ++ pd.name ≠ k) :
    Update.getKey (Update.processProject g cfg pd) k = Update.getKey cfg k := by
  unfold Update.processProject Update.get_project_info Update.get_remotes
  by_cases hi : pd.inited
  · by_cases hr : pd.remotes.isEmpty
    · simp [hi, hr]
    · simp [hi, hr, getKey_setKey_frame cfg _ _ k h]
  · simp [hi]

theorem processProject_isSome (g : Update.GroupDirState) (cfg : Update.Config)
    (pd : Update.ProjectDirState) (k : String)
    (h : (Update.getKey cfg k).isSome = true) :
    (Update.getKey (Update.processProject g cfg pd) k).isSome = true := by
  unfold Update.processProject Update.get_project_info Update.get_remotes
  by_cases hi : pd.inited
  · by_cases hr : pd.remotes.isEmpty
    · simpa [hi, hr] using h
    · simpa [hi, hr] using setKey_isSome cfg _ _ k h
  · simpa [hi] using h

theorem foldProjects_frame (g : Update.GroupDirState)
    (pds : List Update.ProjectDirState) (cfg : Update.Config) (k : String)
    (h : ∀ pd ∈ pds, g.name ++ "." ++ pd.name ≠ k) :
    Update.getKey (pds.foldl (Update.processProject g) cfg) k = Update.getKey cfg k := by
  induction pds generalizing cfg with
  | nil => rfl
  | cons pd rest ih =>
      simp only [List.foldl_cons]
      rw [ih _ (fun x hx => h x (by simp [hx])),
        processProject_frame g cfg pd k (h pd (by simp))]

theorem foldProjects_isSome (g : Update.GroupDirState)
    (pds : List Update.ProjectDirState) (cfg : Update.Config) (k : String)
    (h : (Update.getKey cfg k).isSome = true) :
    (Update.getKey (pds.foldl (Update.processProject g) cfg) k).isSome = true := by
  induction pds generalizing cfg with
  | nil => exact h
  | cons pd rest ih =>
      simp only [List.foldl_cons]
      exact ih _ (processProject_isSome g cfg pd k h)

theorem foldGroups_isSome (k : String) :
    ∀ (gs : List Update.GroupDirState) (cfg : Update.Config),
      (Update.getKey cfg k).isSome = true →
      (Update.getKey
        (gs.foldl (fun c g => g.projects.foldl (Update.processProject g) c) cfg)
        k).isSome = true
  | [], _, h => h
  | g :: rest, cfg, h => by
      simp only [List.foldl_cons]
      exact foldGroups_isSome k rest _ (foldProjects_isSome g g.projects cfg k h)

theorem foldGroups_frame (k : String) :
    ∀ (gs : List Update.GroupDirState) (cfg : Update.Config),
      k ∉ Update.observedKeys gs →
      Update.getKey
          (gs.foldl (fun c g => g.projects.foldl (Update.processProject g) c) cfg) k =
        Update.getKey cfg k
  | [], _, _ => rfl
  | g :: rest, cfg, h => by
      simp only [List.foldl_cons]
      have h1 : ∀ pd ∈ g.projects, g.name ++ "." ++ pd.name ≠ k := by
        intro pd hpd heq
        refine h ?_
        simp only [Update.observedKeys, List.flatMap_cons, List.mem_append]
        exact Or.inl (List.mem_map.mpr ⟨pd, hpd, heq⟩)
      have h2 : k ∉ Update.observedKeys rest := by
        intro hk
        refine h ?_
        simp only [Update.observedKeys, List.flatMap_cons, List.mem_append]
        exact Or.inr hk
      rw [foldGroups_frame k rest _ h2, foldProjects_frame g g.projects cfg k h1]

/-- C8: the discovery merge is overwrite-only: any key present in the input
declaration is still present after the merge, and a key not observed on disk
keeps its entry unchanged. -/
theorem c8_merge_overwrite_only (cfg : Update.Config)
    (base : List Update.GroupDirState) (k : String) :
    ((Update.getKey cfg k).isSome = true →
      (Update.getKey (Update.update_config (some cfg) base) k).isSome = true) ∧
    (k ∉ Update.observedKeys base →
      Update.getKey (Update.update_config (some cfg) base) k = Update.getKey cfg k) :=
  ⟨fun h => foldGroups_isSome k base cfg h, fun h => foldGroups_frame k base cfg h⟩

/-- Witness for C8: a stale entry whose repository is gone from disk survives
a discovery run over a base directory containing a different project. -/
theorem c8_witness :
    (Update.getKey
      (Update.update_config (some [("g.old", ⟨[("origin", "u")], "g", "old", false⟩)])
        [⟨"g", [⟨"new", true, [("origin", "u2")], none⟩]⟩]) "g.old").isSome = true ∧
    Update.getKey
        (Update.update_config (some [("g.old", ⟨[("origin", "u")], "g", "old", false⟩)])
          [⟨"g", [⟨"new", true, [("origin", "u2")], none⟩]⟩]) "g.old" =
      Update.getKey [("g.old", ⟨[("origin", "u")], "g", "old", false⟩)] "g.old" := by
  have h := c8_merge_overwrite_only [("g.old", ⟨[("origin", "u")], "g", "old", false⟩)]
    [⟨"g", [⟨"new", true, [("origin", "u2")], none⟩]⟩] "g.old"
  exact ⟨h.1 (by rfl), h.2 (by decide)⟩

/-- C7 (amended): a VCS-initialized directory with at least one configured
remote gets an entry synthesized from its remotes and environment marker,
keyed group.name and overwriting by key; an uninitialized directory, and an
initialized one with no remotes, produce no entry and no error; a one-group
base feeds exactly these per-directory results through the engine. -/
theorem c7_discovery_synthesis (g : Update.GroupDirState) (cfg : Update.Config)
    (pd : Update.ProjectDirState) :
    (pd.inited = true → pd.remotes ≠ [] →
      Update.processProject g cfg pd =
        Update.setKey cfg (g.name ++ "." ++ pd.name)
          ⟨pd.remotes, g.name, pd.name, Envrc.has_envrc pd.envrcContent⟩ ∧
      Update.getKey (Update.processProject g cfg pd) (g.name ++ "." ++ pd.name) =
        some ⟨pd.remotes, g.name, pd.name, Envrc.has_envrc pd.envrcContent⟩) ∧
    (pd.inited = false → Update.processProject g cfg pd = cfg) ∧
    (pd.inited = true → pd.remotes = [] → Update.processProject g cfg pd = cfg) ∧
    Update.update_config (some cfg) [g] = g.projects.foldl (Update.processProject g) cfg := by
  refine ⟨fun hi hr => ?_, fun hi => ?_, fun hi hr => ?_, rfl⟩
  · have hre : pd.remotes.isEmpty = false := by
      cases hrem : pd.remotes with
      | nil => exact absurd hrem hr
      | cons a l => rfl
    have heq : Update.processProject g cfg pd =
        Update.setKey cfg (g.name ++ "." ++ pd.name)
          ⟨pd.remotes, g.name, pd.name, Envrc.has_envrc pd.envrcContent⟩ := by
      unfold Update.processProject Update.get_project_info Update.get_remotes
      simp [hi, hre]
    exact ⟨heq, by rw [heq, getKey_setKey_self]⟩
  · unfold Update.processProject
    simp [hi]
  · unfold Update.processProject Update.get_project_info Update.get_remotes
    simp [hi, hr]

/-- Witness for C7 (amended) on a group holding one initialized project with
an origin remote and the environment marker file. -/
theorem c7_witness :
    Update.processProject ⟨"g", [⟨"r", true, [("origin", "u")],
        some "source .venv/bin/activate"⟩]⟩ []
      ⟨"r", true, [("origin", "u")], some "source .venv/bin/activate"⟩ =
      [("g.r", ⟨[("origin", "u")], "g", "r", true⟩)] ∧
    Update.processProject ⟨"g", []⟩ [] ⟨"s", false, [("origin", "u")], none⟩ =
      ([] : Update.Config) := by
  constructor
  · have h := ((c7_discovery_synthesis
      ⟨"g", [⟨"r", true, [("origin", "u")], some "source .venv/bin/activate"⟩]⟩ []
      ⟨"r", true, [("origin", "u")], some "source .venv/bin/activate"⟩).1
        rfl (by decide)).1
    exact h.trans (by decide)
  · exact (c7_discovery_synthesis ⟨"g", []⟩ []
      ⟨"s", false, [("origin", "u")], none⟩).2.1 rfl

theorem resolve_normal_aux (cs : List String) (acc : List String)
    (h : ∀ c ∈ cs, c ≠ "." ∧ c ≠ "..") :
    cs.foldl Paths.resolveStep acc = acc ++ cs := by
  induction cs generalizing acc with
  | nil => simp
  | cons c rest ih =>
      have hc := h c (by simp)
      simp only [List.foldl_cons, Paths.resolveStep, if_neg hc.1, if_neg hc.2]
      rw [ih _ (fun x hx => h x (by simp [hx]))]
      simp

theorem isPrefixOf_append_self (l t : List String) : l.isPrefixOf (l ++ t) = true := by
  induction l with
  | nil => simp [List.isPrefixOf]
  | cons a as ih => simp [List.isPrefixOf, ih]

/-- Counterexample to C9 as stated: the constructor validates nothing; a
group of ".." resolves to a path outside the base directory. -/
theorem c9_escape_counterexample :
    Paths.projectDir ["home", "user", "dev"] ".." "x" = ["home", "user", "x"] ∧
    Paths.withinBase ["home", "user", "dev"]
      (Paths.projectDir ["home", "user", "dev"] ".." "x") = false := by
  exact ⟨by decide, by decide⟩

/-- C9 (amended): no validation is performed, so the invariant only holds
conditionally: when the base directory components and the group and name are
single normal components (nonempty, not navigation, no slash), the resolved
path is base_dir/group/name and stays inside base_dir; a group or name
containing ".." can escape. -/
theorem c9_path_containment (base : List String) (group name : String)
    (hb : ∀ c ∈ base, c ≠ "." ∧ c ≠ "..")
    (hg : Paths.normalComponent group) (hn : Paths.normalComponent name) :
    Paths.projectDir base group name = base ++ [group, name] ∧
    Paths.withinBase base (Paths.projectDir base group name) = true := by
  have heq : Paths.projectDir base group name = base ++ [group, name] := by
    unfold Paths.projectDir Paths.resolveComponents
    rw [hg.1, hn.1]
    have hall : ∀ c ∈ base ++ [group] ++ [name], c ≠ "." ∧ c ≠ ".." := by
      intro c hc
      simp only [List.append_assoc, List.mem_append, List.mem_singleton] at hc
      rcases hc with hc | hc | hc
      · exact hb c hc
      · subst hc; exact ⟨hg.2.1, hg.2.2⟩
      · subst hc; exact ⟨hn.2.1, hn.2.2⟩
    rw [resolve_normal_aux _ [] hall]
    simp
  refine ⟨heq, ?_⟩
  rw [heq]
  unfold Paths.withinBase
  have := isPrefixOf_append_self base [group, name]
  exact this

/-- Witness for C9 (amended) on a concrete well-formed declaration. -/
theorem c9_witness :
    Paths.projectDir ["home", "user", "dev"] "grp" "proj" =
      ["home", "user", "dev", "grp", "proj"] ∧
    Paths.withinBase ["home", "user", "dev"]
      (Paths.projectDir ["home", "user", "dev"] "grp" "proj") = true := by
  have h := c9_path_containment ["home", "user", "dev"] "grp" "proj"
    (by decide) (by decide) (by decide)
  exact ⟨h.1.trans (by decide), h.2⟩

end LocalRepoManager
